import Mathlib

/-!
Verification of the PatternLab core: the pattern registry
(`src/core/engine/pattern-registry.ts`), the diagram model
(`src/diagram/types/index.ts`, `src/core/types/pattern.types.ts`), the
diagram renderer (`DiagramCanvas`, `DiagramEdge.tsx`, `DiagramNode.tsx`)
and the diagram interaction store (zustand store in the diagram module).

The TypeScript code is shallowly embedded: a JS `Map` keyed by strings is
modelled as an association list whose insertion order matches the Map's
iteration order (`set` on a present key replaces in place, `set` on an
absent key appends, `delete` removes the entry); numeric SVG coordinates
and animation times are modelled as rationals.
-/

namespace PatternLab

/-! ## Diagram model (`src/diagram/types/index.ts`) -/

/-- The `Position` from `src/diagram/types/index.ts`: a point in 2D space. -/
structure Position where
  x : ℚ
  y : ℚ
  deriving DecidableEq, Repr

/-- The `Size` from `src/diagram/types/index.ts`. -/
structure Size where
  width : ℚ
  height : ℚ
  deriving DecidableEq, Repr

/-- The `NodeType` union from `src/diagram/types/index.ts`. -/
inductive NodeType where
  | class_
  | interface
  | abstract
  | object
  | method
  deriving DecidableEq, Repr

/-- The `EdgeType` union from `src/diagram/types/index.ts`. -/
inductive EdgeType where
  | inheritance
  | implementation
  | composition
  | aggregation
  | association
  | dependency
  deriving DecidableEq, Repr

/-- The `DiagramNode` interface from `src/diagram/types/index.ts`. -/
structure DiagramNode where
  id : String
  type : NodeType
  label : String
  position : Position
  size : Option Size := none
  properties : Option (List String) := none
  methods : Option (List String) := none
  highlighted : Option Bool := none
  color : Option String := none
  deriving DecidableEq, Repr

/-- The `DiagramEdge` interface from `src/diagram/types/index.ts`. -/
structure DiagramEdge where
  id : String
  type : EdgeType
  source : String
  target : String
  label : Option String := none
  animated : Option Bool := none
  color : Option String := none
  deriving DecidableEq, Repr

/-- The `AnimationConfig` interface from `src/diagram/types/index.ts`. -/
structure AnimationConfig where
  duration : Option ℚ := none
  delay : Option ℚ := none
  stagger : Option ℚ := none
  ease : Option String := none
  deriving DecidableEq, Repr

/-- The `viewport` field type of `DiagramConfig`. -/
structure Viewport where
  width : ℚ
  height : ℚ
  zoom : Option ℚ := none
  pan : Option Position := none
  deriving DecidableEq, Repr

/-- The `DiagramConfig` interface from `src/diagram/types/index.ts`. -/
structure DiagramConfig where
  nodes : List DiagramNode
  edges : List DiagramEdge
  animation : Option AnimationConfig := none
  viewport : Option Viewport := none
  deriving DecidableEq, Repr

/-! ## Pattern model (`src/core/types/pattern.types.ts`) -/

/-- The `PatternCategory` union from `src/core/types/pattern.types.ts`. -/
inductive PatternCategory where
  | creational
  | structural
  | behavioral
  deriving DecidableEq, Repr

/-- The `DifficultyLevel` union from `src/core/types/pattern.types.ts`. -/
inductive DifficultyLevel where
  | beginner
  | intermediate
  | advanced
  deriving DecidableEq, Repr

/-- The `PatternModule` interface from `src/core/types/pattern.types.ts`. -/
structure PatternModule where
  id : String
  name : String
  category : PatternCategory
  description : String
  difficulty : DifficultyLevel
  whenToUse : List String
  whenNotToUse : List String
  badExample : String
  goodExample : String
  diagram : DiagramConfig
  relatedPatterns : Option (List String) := none
  tags : Option (List String) := none
  deriving DecidableEq, Repr

/-- The `PatternMeta` interface from `src/core/types/pattern.types.ts`. -/
structure PatternMeta where
  id : String
  name : String
  category : PatternCategory
  difficulty : DifficultyLevel
  description : String
  tags : Option (List String) := none
  deriving DecidableEq, Repr

/-! ## Pattern registry (`src/core/engine/pattern-registry.ts`)

A JS `Map<string, PatternModule>` is modelled as an association list in
iteration order.  `Map.prototype.set` on a key that is already present
replaces the value at the original position; on an absent key it appends
a new entry at the end.  `Map.prototype.delete` removes the entry for the
key and reports whether one was removed. -/

/-- The `Map.prototype.set` on an association list: replace in place when the
key is present, append otherwise. -/
def mapSet (m : List (String × PatternModule)) (k : String) (v : PatternModule) :
    List (String × PatternModule) :=
  if m.any (fun p => p.1 = k) then
    m.map (fun p => if p.1 = k then (k, v) else p)
  else
    m ++ [(k, v)]

/-- The `Map.prototype.get` on an association list. -/
def mapGet (m : List (String × PatternModule)) (k : String) : Option PatternModule :=
  (m.find? (fun p => p.1 = k)).map Prod.snd

/-- The `PatternRegistry` interface: owns the `patterns` map. -/
structure PatternRegistry where
  patterns : List (String × PatternModule)
  deriving DecidableEq, Repr

/-- The `createPatternRegistry(initialPatterns = [])`: seeds an empty map with
`patterns.set(pattern.id, pattern)` for each initial pattern in order. -/
def createPatternRegistry (initialPatterns : List PatternModule := []) : PatternRegistry :=
  { patterns := initialPatterns.foldl (fun m pat => mapSet m pat.id pat) [] }

/-- The `getPattern(id)`: `patterns.get(id)`. -/
def getPattern (reg : PatternRegistry) (id : String) : Option PatternModule :=
  mapGet reg.patterns id

/-- The `getPatternsByCategory(category)`:
`Array.from(patterns.values()).filter(p => p.category === category)`. -/
def getPatternsByCategory (reg : PatternRegistry) (category : PatternCategory) :
    List PatternModule :=
  (reg.patterns.map Prod.snd).filter (fun p => p.category = category)

/-- The `getAllPatterns()`: `Array.from(patterns.values())`. -/
def getAllPatterns (reg : PatternRegistry) : List PatternModule :=
  reg.patterns.map Prod.snd

/-- The projection applied by `getPatternMetas()` to one record. -/
def toMeta (p : PatternModule) : PatternMeta :=
  { id := p.id
    name := p.name
    category := p.category
    difficulty := p.difficulty
    description := p.description
    tags := p.tags }

/-- The `getPatternMetas()`: maps each record to its `{id, name, category,
difficulty, description, tags}` projection. -/
def getPatternMetas (reg : PatternRegistry) : List PatternMeta :=
  (reg.patterns.map Prod.snd).map toMeta

/-- The `registerPattern(registry, pattern)`: `registry.patterns.set(pattern.id, pattern)`.
Returns the updated registry (the TS function mutates in place). -/
def registerPattern (reg : PatternRegistry) (pat : PatternModule) : PatternRegistry :=
  { patterns := mapSet reg.patterns pat.id pat }

/-- The `unregisterPattern(registry, patternId)`: `registry.patterns.delete(patternId)`.
Returns the boolean result together with the updated registry. -/
def unregisterPattern (reg : PatternRegistry) (patternId : String) :
    Bool × PatternRegistry :=
  (reg.patterns.any (fun p => p.1 = patternId),
   { patterns := reg.patterns.eraseP (fun p => p.1 = patternId) })

/-- Well-formedness of a registry state: what every state reachable through
the JS `Map` satisfies — keys are pairwise distinct, and every entry is
keyed by its record's `id` (all insertions go through
`patterns.set(pattern.id, pattern)`). -/
@[reducible]
def RegistryWF (reg : PatternRegistry) : Prop :=
  (reg.patterns.map Prod.fst).Nodup ∧ ∀ e ∈ reg.patterns, e.1 = e.2.id

/-! ## Diagram renderer

`DiagramCanvas` builds `nodeMap = new Map(nodes.map(n => [n.id, n]))`
(later entries overwrite earlier on duplicate ids), skips any edge whose
source or target is missing from the map, and passes each surviving edge
and every node an `animationDelay` of
`(animation?.delay ?? 0) + index * (animation?.stagger ?? 0.1)` where
`index` is the element's position in its own list.  `DiagramEdge` turns
anchor data into a cubic path; `DiagramNode` draws the box and at most
two truncated property lines. -/

/-- The `nodeMap.get id` for `nodeMap = new Map(nodes.map(n => [n.id, n]))`:
the Map constructor lets a later duplicate id overwrite an earlier one,
so lookup returns the last node with the id. -/
def nodeLookup (nodes : List DiagramNode) (id : String) : Option DiagramNode :=
  nodes.foldl (fun acc n => if n.id = id then some n else acc) none

/-- The `edgeColors` record from `DiagramEdge.tsx`. -/
def edgeColors : EdgeType → String
  | .inheritance => "#4f46e5"
  | .implementation => "#0891b2"
  | .composition => "#dc2626"
  | .aggregation => "#f59e0b"
  | .association => "#6b7280"
  | .dependency => "#8b5cf6"

/-- The `getEdgeMarker(type)` from `DiagramEdge.tsx`. -/
def getEdgeMarker : EdgeType → String
  | .inheritance => "url(#arrow-hollow)"
  | .implementation => "url(#arrow-hollow)"
  | .composition => "url(#diamond-filled)"
  | .aggregation => "url(#diamond-hollow)"
  | _ => "url(#arrow-filled)"

/-- The `nodeColors` record from `DiagramNode.tsx`. -/
def nodeColors : NodeType → String
  | .class_ => "#4f46e5"
  | .interface => "#0891b2"
  | .abstract => "#7c3aed"
  | .object => "#059669"
  | .method => "#dc2626"

/-- Rendered name of a `NodeType`, as it appears in the TS string union. -/
def nodeTypeName : NodeType → String
  | .class_ => "class"
  | .interface => "interface"
  | .abstract => "abstract"
  | .object => "object"
  | .method => "method"

/-- The per-element entrance delay computed by `DiagramCanvas`:
`(animation?.delay ?? 0) + index * (animation?.stagger ?? 0.1)`. -/
def elementDelay (animation : Option AnimationConfig) (index : ℕ) : ℚ :=
  ((animation.bind AnimationConfig.delay).getD 0) +
    index * ((animation.bind AnimationConfig.stagger).getD (1 / 10))

/-- The `node.size?.width ?? 160` from `DiagramCanvas` / `DiagramNode`. -/
def nodeWidth (n : DiagramNode) : ℚ :=
  (n.size.map Size.width).getD 160

/-- The `node.size?.height ?? 100` from `DiagramCanvas` / `DiagramNode`. -/
def nodeHeight (n : DiagramNode) : ℚ :=
  (n.size.map Size.height).getD 100

/-- The cubic Bézier connector path built by `DiagramEdge`:
`M p0 C c1, c2, p3`. -/
structure CubicPath where
  p0 : Position
  c1 : Position
  c2 : Position
  p3 : Position
  deriving DecidableEq, Repr

/-- One connector element as produced by `DiagramEdge` for a resolved edge. -/
structure RenderedEdge where
  edgeId : String
  path : CubicPath
  color : String
  marker : String
  dashed : Bool
  label : Option String
  animatedDot : Bool
  delay : ℚ
  deriving DecidableEq, Repr

/-- The `DiagramEdge` component applied to a resolved edge: translates the
anchor arithmetic of `DiagramEdge.tsx` lines 45–55 and the style
resolution (color override, marker by type, dashed stroke for
`dependency`/`implementation`). -/
def renderResolvedEdge (edge : DiagramEdge) (sourcePos targetPos : Position)
    (sourceSize targetSize : Size) (animationDelay : ℚ) : RenderedEdge :=
  let color := edge.color.getD (edgeColors edge.type)
  let startX := sourcePos.x + sourceSize.width / 2
  let startY := sourcePos.y + sourceSize.height
  let endX := targetPos.x + targetSize.width / 2
  let endY := targetPos.y
  let midY := (startY + endY) / 2
  { edgeId := edge.id
    path := { p0 := ⟨startX, startY⟩, c1 := ⟨startX, midY⟩,
              c2 := ⟨endX, midY⟩, p3 := ⟨endX, endY⟩ }
    color := color
    marker := getEdgeMarker edge.type
    dashed := edge.type = .dependency ∨ edge.type = .implementation
    label := edge.label
    animatedDot := edge.animated.getD false
    delay := animationDelay }

/-- The edge branch of `DiagramCanvas`: resolve the edge's endpoints in the
node map; skip the edge (`return null`) when either is missing, otherwise
render it with the default 160×100 size for nodes without an explicit
`size` and the staggered delay for its index. -/
def renderEdgeAt (nodes : List DiagramNode) (animation : Option AnimationConfig)
    (index : ℕ) (edge : DiagramEdge) : Option RenderedEdge :=
  match nodeLookup nodes edge.source, nodeLookup nodes edge.target with
  | some sourceNode, some targetNode =>
      some (renderResolvedEdge edge sourceNode.position targetNode.position
        ⟨nodeWidth sourceNode, nodeHeight sourceNode⟩
        ⟨nodeWidth targetNode, nodeHeight targetNode⟩
        (elementDelay animation index))
  | _, _ => none

/-- All connector elements rendered by `DiagramCanvas` for a config. -/
def renderEdges (config : DiagramConfig) : List RenderedEdge :=
  config.edges.enum.filterMap (fun p => renderEdgeAt config.nodes config.animation p.1 p.2)

/-- The `prop.length > 20 ? prop.slice(0, 20) + '...' : prop` from
`DiagramNode.tsx`. -/
def truncateProp (prop : String) : String :=
  if prop.length > 20 then String.mk (prop.toList.take 20) ++ "..." else prop

/-- One node box as produced by `DiagramNode`. -/
structure RenderedNode where
  nodeId : String
  x : ℚ
  y : ℚ
  width : ℚ
  height : ℚ
  color : String
  typeLabel : String
  label : String
  propertyLines : List String
  delay : ℚ
  deriving DecidableEq, Repr

/-- The `DiagramNode` component: default size 160×100, color from the
override or the per-type default, the `«type»` header, the label, and
only the first two `properties` entries, each truncated to 20 characters
with an ellipsis (`node.properties?.slice(0, 2)`); `node.methods` is
never read. -/
def renderNode (node : DiagramNode) (animationDelay : ℚ) : RenderedNode :=
  { nodeId := node.id
    x := node.position.x
    y := node.position.y
    width := nodeWidth node
    height := nodeHeight node
    color := node.color.getD (nodeColors node.type)
    typeLabel := "<<" ++ nodeTypeName node.type ++ ">>"
    label := node.label
    propertyLines := ((node.properties.getD []).take 2).map truncateProp
    delay := animationDelay }

/-- All node boxes rendered by `DiagramCanvas` for a config. -/
def renderNodes (config : DiagramConfig) : List RenderedNode :=
  config.nodes.enum.map
    (fun p => renderNode p.2 (elementDelay config.animation p.1))

/-- The `DiagramCanvas`: the full scene, edges layer then nodes layer. -/
def renderDiagram (config : DiagramConfig) : List RenderedEdge × List RenderedNode :=
  (renderEdges config, renderNodes config)

/-! ## Diagram interaction store (zustand store of the diagram module) -/

/-- The `DiagramState` interface from `src/diagram/types/index.ts`. -/
structure DiagramState where
  config : Option DiagramConfig
  selectedNodeId : Option String
  hoveredNodeId : Option String
  zoom : ℚ
  pan : Position
  deriving DecidableEq, Repr

/-- The `initialState` of the diagram store. -/
def initialState : DiagramState :=
  { config := none
    selectedNodeId := none
    hoveredNodeId := none
    zoom := 1
    pan := ⟨0, 0⟩ }

/-- The `setConfig` action: `set({ config })`. -/
def setConfig (config : Option DiagramConfig) (s : DiagramState) : DiagramState :=
  { s with config := config }

/-- The `setSelectedNode` action: `set({ selectedNodeId: nodeId })`. -/
def setSelectedNode (nodeId : Option String) (s : DiagramState) : DiagramState :=
  { s with selectedNodeId := nodeId }

/-- The `setHoveredNode` action: `set({ hoveredNodeId: nodeId })`. -/
def setHoveredNode (nodeId : Option String) (s : DiagramState) : DiagramState :=
  { s with hoveredNodeId := nodeId }

/-- The `setZoom` action: `set({ zoom: Math.max(0.1, Math.min(2, zoom)) })`. -/
def setZoom (zoom : ℚ) (s : DiagramState) : DiagramState :=
  { s with zoom := max (1 / 10) (min 2 zoom) }

/-- The `setPan` action: `set({ pan })`. -/
def setPan (pan : Position) (s : DiagramState) : DiagramState :=
  { s with pan := pan }

/-- The `reset` action: `set(initialState)` — every `DiagramState` field is
listed in `initialState`, so the merge restores the full state. -/
def resetStore (_s : DiagramState) : DiagramState :=
  initialState

/-- One store operation, for quantifying over action sequences. -/
inductive StoreAction where
  | setConfig (config : Option DiagramConfig)
  | setSelectedNode (nodeId : Option String)
  | setHoveredNode (nodeId : Option String)
  | setZoom (zoom : ℚ)
  | setPan (pan : Position)
  | reset
  deriving Repr

/-- Apply one store action to a state. -/
def applyAction (s : DiagramState) : StoreAction → DiagramState
  | .setConfig c => setConfig c s
  | .setSelectedNode n => setSelectedNode n s
  | .setHoveredNode n => setHoveredNode n s
  | .setZoom z => setZoom z s
  | .setPan p => setPan p s
  | .reset => resetStore s

/-- Run a sequence of store actions from a state. -/
def runActions (s : DiagramState) (acts : List StoreAction) : DiagramState :=
  acts.foldl applyAction s

/-! ## Sample data for witnesses -/

/-- A minimal concrete pattern record, used to instantiate theorems. -/
def samplePattern : PatternModule :=
  { id := "singleton"
    name := "Singleton"
    category := .creational
    description := "Ensures a class has only one instance."
    difficulty := .beginner
    whenToUse := ["when exactly one instance is needed"]
    whenNotToUse := ["when global state hurts testability"]
    badExample := "const t = new Thing()"
    goodExample := "Singleton.getInstance()"
    diagram := { nodes := [], edges := [] } }

/-- A second record with the same id as `samplePattern`, for
last-write-wins instantiation. -/
def samplePatternV2 : PatternModule :=
  { samplePattern with description := "Updated description." }

/-- A record with a different id. -/
def sampleOther : PatternModule :=
  { samplePattern with id := "observer", name := "Observer", category := .behavioral }

/-! ## Registry lemmas -/

theorem mapSet_nil (k : String) (v : PatternModule) : mapSet [] k v = [(k, v)] := rfl

theorem mapSet_cons_eq {a : String × PatternModule} {as : List (String × PatternModule)}
    {k : String} {v : PatternModule} (h : a.1 = k) :
    mapSet (a :: as) k v = (k, v) :: as.map (fun p => if p.1 = k then (k, v) else p) := by
  simp [mapSet, h]

theorem mapSet_cons_ne {a : String × PatternModule} {as : List (String × PatternModule)}
    {k : String} {v : PatternModule} (h : ¬a.1 = k) :
    mapSet (a :: as) k v = a :: mapSet as k v := by
  cases hany : as.any (fun p => p.1 = k) <;> simp [mapSet, h, hany]

theorem mapGet_nil (k : String) : mapGet [] k = none := rfl

theorem mapGet_cons (a : String × PatternModule) (as : List (String × PatternModule))
    (k : String) : mapGet (a :: as) k = if a.1 = k then some a.2 else mapGet as k := by
  by_cases h : a.1 = k <;> simp [mapGet, h]

/-- The `set` then `get` at the same key yields the new value, on any map state. -/
theorem mapGet_mapSet_self (m : List (String × PatternModule)) (k : String)
    (v : PatternModule) : mapGet (mapSet m k v) k = some v := by
  induction m with
  | nil => simp [mapSet_nil, mapGet_cons]
  | cons a as ih =>
    by_cases h : a.1 = k
    · rw [mapSet_cons_eq h, mapGet_cons]; simp
    · rw [mapSet_cons_ne h, mapGet_cons, if_neg h]; exact ih

/-- A lookup at a key carried by no entry is absent. -/
theorem mapGet_eq_none {m : List (String × PatternModule)} {k : String}
    (h : ∀ e ∈ m, e.1 ≠ k) : mapGet m k = none := by
  unfold mapGet
  rw [List.find?_eq_none.mpr]
  · rfl
  · intro e he
    simpa using h e he

/-- After `set` at a well-formed map state, the values stream holds exactly
one record with the inserted id, namely the inserted record. -/
theorem filter_mapSet_id (ps : List (String × PatternModule))
    (hnd : (ps.map Prod.fst).Nodup) (hid : ∀ e ∈ ps, e.1 = e.2.id)
    (r : PatternModule) :
    ((mapSet ps r.id r).map Prod.snd).filter (fun p => p.id = r.id) = [r] := by
  induction ps with
  | nil => simp [mapSet_nil]
  | cons a as ih =>
    rw [List.map_cons, List.nodup_cons] at hnd
    have hnotin : a.1 ∉ as.map Prod.fst := hnd.1
    have hnd' : (as.map Prod.fst).Nodup := hnd.2
    have hid' : ∀ e ∈ as, e.1 = e.2.id := fun e he => hid e (List.mem_cons_of_mem _ he)
    by_cases h : a.1 = r.id
    · rw [mapSet_cons_eq h]
      have hmap : as.map (fun p => if p.1 = r.id then (r.id, r) else p) = as := by
        have hpt : ∀ p ∈ as, (if p.1 = r.id then (r.id, r) else p) = id p := by
          intro p hp
          have hp1 : p.1 ≠ r.id := by
            intro hc
            exact hnotin (by rw [h, ← hc]; exact List.mem_map_of_mem Prod.fst hp)
          simp [hp1]
        rw [List.map_congr_left hpt, List.map_id]
      rw [hmap, List.map_cons]
      rw [List.filter_cons_of_pos (by simp)]
      have htail : (as.map Prod.snd).filter (fun p => p.id = r.id) = [] := by
        rw [List.filter_eq_nil_iff]
        intro p hp
        obtain ⟨e, he, rfl⟩ := List.mem_map.mp hp
        have hne : e.1 ≠ r.id := by
          intro hc
          exact hnotin (by rw [h, ← hc]; exact List.mem_map_of_mem Prod.fst he)
        simpa using fun hcontra => hne ((hid' e he).trans hcontra)
      simp [htail]
    · rw [mapSet_cons_ne h, List.map_cons]
      have ha2 : ¬(a.2.id = r.id) := by
        rw [← hid a (List.mem_cons_self a as)]
        exact h
      rw [List.filter_cons_of_neg (by simpa using ha2)]
      exact ih hnd' hid'

/-- The `createPatternRegistry` on a seed list is the fold of `registerPattern`
over the empty registry: seeding and registration share one code path
(`patterns.set(pattern.id, pattern)`). -/
theorem foldl_registerPattern (l : List PatternModule)
    (m : List (String × PatternModule)) :
    List.foldl registerPattern ⟨m⟩ l = ⟨l.foldl (fun acc pat => mapSet acc pat.id pat) m⟩ := by
  induction l generalizing m with
  | nil => rfl
  | cons p l ih => simp [registerPattern, ih]

/-- Erasing a key from a map state with distinct keys leaves no entry at
that key. -/
theorem mapGet_eraseP {ps : List (String × PatternModule)}
    (hnd : (ps.map Prod.fst).Nodup) (id : String) :
    mapGet (ps.eraseP (fun p => p.1 = id)) id = none := by
  induction ps with
  | nil => rfl
  | cons a as ih =>
    rw [List.map_cons, List.nodup_cons] at hnd
    by_cases h : a.1 = id
    · rw [List.eraseP_cons_of_pos (by simpa using h)]
      apply mapGet_eq_none
      intro e he hc
      exact hnd.1 (by rw [h, ← hc]; exact List.mem_map_of_mem Prod.fst he)
    · rw [List.eraseP_cons_of_neg (by simpa using h), mapGet_cons, if_neg h]
      exact ih hnd.2

/-! ## Claim theorems: registry -/

/-- C1: on every well-formed registry state, after `registerPattern` the
lookup at the record's id returns exactly that record, the values stream
holds exactly one record with that id (holding the most recent value,
last-write-wins), and seeding in `createPatternRegistry` is the same fold
of registrations over the empty registry, so duplicate seeding also
resolves last-write-wins; no operation signals an error. -/
theorem registerPattern_last_write_wins (reg : PatternRegistry) (hWF : RegistryWF reg)
    (r : PatternModule) :
    getPattern (registerPattern reg r) r.id = some r ∧
    (getAllPatterns (registerPattern reg r)).filter (fun p => p.id = r.id) = [r] ∧
    ∀ l : List PatternModule,
      createPatternRegistry l = List.foldl registerPattern (createPatternRegistry []) l := by
  refine ⟨mapGet_mapSet_self _ _ _, filter_mapSet_id _ hWF.1 hWF.2 r, ?_⟩
  intro l
  have h0 : createPatternRegistry [] = (⟨[]⟩ : PatternRegistry) := rfl
  rw [h0, foldl_registerPattern]
  rfl

/-- C1 witness: a registry seeded with two records, re-registering a new
value under the existing id `singleton`. -/
theorem registerPattern_last_write_wins_witness :
    RegistryWF (createPatternRegistry [sampleOther, samplePattern]) ∧
    (getPattern (registerPattern (createPatternRegistry [sampleOther, samplePattern])
        samplePatternV2) samplePatternV2.id = some samplePatternV2 ∧
     (getAllPatterns (registerPattern (createPatternRegistry [sampleOther, samplePattern])
        samplePatternV2)).filter (fun p => p.id = samplePatternV2.id) = [samplePatternV2] ∧
     ∀ l : List PatternModule,
       createPatternRegistry l = List.foldl registerPattern (createPatternRegistry []) l) :=
  ⟨by decide,
   registerPattern_last_write_wins (createPatternRegistry [sampleOther, samplePattern])
     (by decide) samplePatternV2⟩

/-- C2: `getPattern` on a freshly created empty registry returns `none` for
every id, and on any registry state whose entries all carry a different
key the lookup returns `none`; every registry operation is a total
function, so nothing throws. -/
theorem getPattern_absent (reg : PatternRegistry) (id : String) :
    getPattern (createPatternRegistry []) id = none ∧
    ((∀ e ∈ reg.patterns, e.1 ≠ id) → getPattern reg id = none) :=
  ⟨rfl, fun h => mapGet_eq_none h⟩

/-- C2 witness: lookup of `singleton` in the empty registry and in a
registry holding only `observer`. -/
theorem getPattern_absent_witness :
    (getPattern (createPatternRegistry []) "singleton" = none ∧
     ((∀ e ∈ (createPatternRegistry [sampleOther]).patterns, e.1 ≠ "singleton") →
        getPattern (createPatternRegistry [sampleOther]) "singleton" = none)) ∧
    getPattern (createPatternRegistry [sampleOther]) "singleton" = none :=
  ⟨getPattern_absent (createPatternRegistry [sampleOther]) "singleton",
   (getPattern_absent (createPatternRegistry [sampleOther]) "singleton").2 (by decide)⟩

/-- C7: on every well-formed registry state, `unregisterPattern` at a
present id returns `true` and afterwards `getPattern` at that id is
absent; at an absent id it returns `false` and leaves the mapping wholly
unchanged. -/
theorem unregisterPattern_spec (reg : PatternRegistry) (hWF : RegistryWF reg)
    (id : String) :
    ((getPattern reg id).isSome →
        (unregisterPattern reg id).1 = true ∧
        getPattern (unregisterPattern reg id).2 id = none) ∧
    ((getPattern reg id).isNone →
        (unregisterPattern reg id).1 = false ∧
        (unregisterPattern reg id).2 = reg) := by
  constructor
  · intro hpres
    refine ⟨?_, mapGet_eraseP hWF.1 id⟩
    have hfind : (reg.patterns.find? (fun p => p.1 = id)).isSome := by
      have : (mapGet reg.patterns id).isSome := hpres
      unfold mapGet at this
      rwa [Option.isSome_map'] at this
    obtain ⟨e, he, hpe⟩ := List.find?_isSome.mp hfind
    exact List.any_eq_true.mpr ⟨e, he, hpe⟩
  · intro habs
    have hfind : reg.patterns.find? (fun p => p.1 = id) = none := by
      have : mapGet reg.patterns id = none := Option.isNone_iff_eq_none.mp habs
      unfold mapGet at this
      rwa [Option.map_eq_none'] at this
    have hnot : ∀ e ∈ reg.patterns, ¬((fun p : String × PatternModule => p.1 = id) e : Bool) :=
      List.find?_eq_none.mp hfind
    constructor
    · exact List.any_eq_false.mpr hnot
    · show (⟨reg.patterns.eraseP (fun p => p.1 = id)⟩ : PatternRegistry) = reg
      rw [List.eraseP_of_forall_not hnot]

/-- C7 witness: removing the present id `singleton` and the absent id
`composite` from a one-record registry. -/
theorem unregisterPattern_spec_witness :
    RegistryWF (createPatternRegistry [samplePattern]) ∧
    ((getPattern (createPatternRegistry [samplePattern]) "singleton").isSome ∧
     (unregisterPattern (createPatternRegistry [samplePattern]) "singleton").1 = true ∧
     getPattern (unregisterPattern (createPatternRegistry [samplePattern]) "singleton").2
        "singleton" = none) ∧
    ((getPattern (createPatternRegistry [samplePattern]) "composite").isNone ∧
     (unregisterPattern (createPatternRegistry [samplePattern]) "composite").1 = false ∧
     (unregisterPattern (createPatternRegistry [samplePattern]) "composite").2 =
        createPatternRegistry [samplePattern]) := by
  refine ⟨by decide, ⟨by decide, ?_⟩, ⟨by decide, ?_⟩⟩
  · exact (unregisterPattern_spec (createPatternRegistry [samplePattern]) (by decide)
      "singleton").1 (by decide)
  · exact (unregisterPattern_spec (createPatternRegistry [samplePattern]) (by decide)
      "composite").2 (by decide)

/-- C8: `getPatternsByCategory` is exactly the category-filter of the
values stream in registry iteration order: it equals `getAllPatterns`
filtered by the category, is an order-preserving sublist of
`getAllPatterns` of length at most the total, every returned record has
the requested category, and every record of that category is returned. -/
theorem getPatternsByCategory_spec (reg : PatternRegistry) (c : PatternCategory) :
    getPatternsByCategory reg c = (getAllPatterns reg).filter (fun p => p.category = c) ∧
    (getPatternsByCategory reg c).Sublist (getAllPatterns reg) ∧
    (getPatternsByCategory reg c).length ≤ (getAllPatterns reg).length ∧
    (∀ p ∈ getPatternsByCategory reg c, p.category = c) ∧
    (∀ p ∈ getAllPatterns reg, p.category = c → p ∈ getPatternsByCategory reg c) := by
  refine ⟨rfl, List.filter_sublist _, (List.filter_sublist _).length_le, ?_, ?_⟩
  · intro p hp
    simpa using List.of_mem_filter hp
  · intro p hp hc
    exact List.mem_filter.mpr ⟨hp, by simpa using hc⟩

/-- C8 witness: a two-record registry queried for `creational` and
`behavioral`. -/
theorem getPatternsByCategory_spec_witness :
    (getPatternsByCategory (createPatternRegistry [samplePattern, sampleOther]) .creational =
      (getAllPatterns (createPatternRegistry [samplePattern, sampleOther])).filter
        (fun p => p.category = .creational) ∧
     (getPatternsByCategory (createPatternRegistry [samplePattern, sampleOther])
        .creational).Sublist
        (getAllPatterns (createPatternRegistry [samplePattern, sampleOther])) ∧
     (getPatternsByCategory (createPatternRegistry [samplePattern, sampleOther])
        .creational).length ≤
        (getAllPatterns (createPatternRegistry [samplePattern, sampleOther])).length ∧
     (∀ p ∈ getPatternsByCategory (createPatternRegistry [samplePattern, sampleOther])
        .creational, p.category = .creational) ∧
     (∀ p ∈ getAllPatterns (createPatternRegistry [samplePattern, sampleOther]),
        p.category = .creational →
          p ∈ getPatternsByCategory (createPatternRegistry [samplePattern, sampleOther])
            .creational)) ∧
    getPatternsByCategory (createPatternRegistry [samplePattern, sampleOther]) .creational =
      [samplePattern] ∧
    getPatternsByCategory (createPatternRegistry [samplePattern]) .behavioral = [] :=
  ⟨getPatternsByCategory_spec (createPatternRegistry [samplePattern, sampleOther])
      .creational,
   by decide, by decide⟩

/-- C9: `getPatternMetas` has the same length as `getAllPatterns`, the
meta at each position agrees with the full record at that position on
`id`, `name`, `category`, `difficulty`, `description` and `tags`, and the
projection ignores the `badExample`, `goodExample` and `diagram` fields
(metas cannot carry them). -/
theorem getPatternMetas_spec (reg : PatternRegistry) :
    (getPatternMetas reg).length = (getAllPatterns reg).length ∧
    (∀ i (h1 : i < (getPatternMetas reg).length) (h2 : i < (getAllPatterns reg).length),
      ((getPatternMetas reg).get ⟨i, h1⟩).id = ((getAllPatterns reg).get ⟨i, h2⟩).id ∧
      ((getPatternMetas reg).get ⟨i, h1⟩).name = ((getAllPatterns reg).get ⟨i, h2⟩).name ∧
      ((getPatternMetas reg).get ⟨i, h1⟩).category
        = ((getAllPatterns reg).get ⟨i, h2⟩).category ∧
      ((getPatternMetas reg).get ⟨i, h1⟩).difficulty
        = ((getAllPatterns reg).get ⟨i, h2⟩).difficulty ∧
      ((getPatternMetas reg).get ⟨i, h1⟩).description
        = ((getAllPatterns reg).get ⟨i, h2⟩).description ∧
      ((getPatternMetas reg).get ⟨i, h1⟩).tags = ((getAllPatterns reg).get ⟨i, h2⟩).tags) ∧
    (∀ (p : PatternModule) (b g : String) (d : DiagramConfig),
      toMeta { p with badExample := b, goodExample := g, diagram := d } = toMeta p) := by
  have hm : getPatternMetas reg = (getAllPatterns reg).map toMeta := rfl
  refine ⟨by rw [hm, List.length_map], ?_, fun p b g d => rfl⟩
  intro i h1 h2
  have hget : (getPatternMetas reg).get ⟨i, h1⟩
      = toMeta ((getAllPatterns reg).get ⟨i, h2⟩) := by
    simp [hm]
  rw [hget]
  exact ⟨rfl, rfl, rfl, rfl, rfl, rfl⟩

/-- C9 witness: metas of a two-record registry inspected at position 0. -/
theorem getPatternMetas_spec_witness :
    (getPatternMetas (createPatternRegistry [samplePattern, sampleOther])).length =
      (getAllPatterns (createPatternRegistry [samplePattern, sampleOther])).length ∧
    (0 < (getPatternMetas (createPatternRegistry [samplePattern, sampleOther])).length ∧
     0 < (getAllPatterns (createPatternRegistry [samplePattern, sampleOther])).length) ∧
    ((getPatternMetas (createPatternRegistry [samplePattern, sampleOther])).get
        ⟨0, by decide⟩).id =
      ((getAllPatterns (createPatternRegistry [samplePattern, sampleOther])).get
        ⟨0, by decide⟩).id ∧
    (∀ (p : PatternModule) (b g : String) (d : DiagramConfig),
      toMeta { p with badExample := b, goodExample := g, diagram := d } = toMeta p) := by
  have h := getPatternMetas_spec (createPatternRegistry [samplePattern, sampleOther])
  exact ⟨h.1, ⟨by decide, by decide⟩,
    (h.2.1 0 (by decide) (by decide)).1, h.2.2⟩

/-! ## Renderer lemmas -/

/-- Sample diagram data for witnesses: two nodes and one inheritance edge,
matching end-to-end scenario B of the spec. -/
def nodeA : DiagramNode :=
  { id := "A", type := .class_, label := "A", position := ⟨100, 50⟩ }

def nodeB : DiagramNode :=
  { id := "B", type := .class_, label := "B", position := ⟨100, 300⟩ }

def edgeAB : DiagramEdge :=
  { id := "e1", type := .inheritance, source := "A", target := "B" }

def sampleDiagram : DiagramConfig :=
  { nodes := [nodeA, nodeB], edges := [edgeAB] }

/-- A config whose only edge references the missing node id `C`
(end-to-end scenario C of the spec). -/
def danglingDiagram : DiagramConfig :=
  { nodes := [nodeA]
    edges := [{ id := "e1", type := .inheritance, source := "A", target := "C" }] }

/-- The connector `DiagramCanvas` produces for `sampleDiagram`. -/
def sampleRenderedEdge : RenderedEdge :=
  renderResolvedEdge edgeAB nodeA.position nodeB.position ⟨160, 100⟩ ⟨160, 100⟩
    (elementDelay none 0)

/-- An edge with an unresolved endpoint renders to nothing. -/
theorem renderEdgeAt_none_of_dangling {nodes : List DiagramNode}
    {animation : Option AnimationConfig} {i : ℕ} {e : DiagramEdge}
    (h : nodeLookup nodes e.source = none ∨ nodeLookup nodes e.target = none) :
    renderEdgeAt nodes animation i e = none := by
  unfold renderEdgeAt
  rcases h with h | h
  · rw [h]
  · rw [h]
    cases nodeLookup nodes e.source <;> rfl

/-- An edge with both endpoints resolved renders to the connector built by
the `DiagramEdge` component. -/
theorem renderEdgeAt_some_of_resolved {nodes : List DiagramNode}
    {animation : Option AnimationConfig} {i : ℕ} {e : DiagramEdge}
    {s t : DiagramNode} (hs : nodeLookup nodes e.source = some s)
    (ht : nodeLookup nodes e.target = some t) :
    renderEdgeAt nodes animation i e =
      some (renderResolvedEdge e s.position t.position
        ⟨nodeWidth s, nodeHeight s⟩ ⟨nodeWidth t, nodeHeight t⟩
        (elementDelay animation i)) := by
  unfold renderEdgeAt
  rw [hs, ht]

/-- Inversion: a rendered connector comes from an edge whose two endpoints
resolved in the node map. -/
theorem renderEdgeAt_some_inv {nodes : List DiagramNode}
    {animation : Option AnimationConfig} {i : ℕ} {e : DiagramEdge}
    {re : RenderedEdge} (h : renderEdgeAt nodes animation i e = some re) :
    ∃ s t, nodeLookup nodes e.source = some s ∧ nodeLookup nodes e.target = some t ∧
      re = renderResolvedEdge e s.position t.position
        ⟨nodeWidth s, nodeHeight s⟩ ⟨nodeWidth t, nodeHeight t⟩
        (elementDelay animation i) := by
  unfold renderEdgeAt at h
  cases hs : nodeLookup nodes e.source with
  | none => rw [hs] at h; exact absurd h (by simp)
  | some s =>
    cases ht : nodeLookup nodes e.target with
    | none => rw [hs, ht] at h; exact absurd h (by simp)
    | some t =>
      rw [hs, ht] at h
      exact ⟨s, t, rfl, rfl, (Option.some_inj.mp h).symm⟩

/-! ## Claim theorems: renderer -/

/-- C3: every connector produced by `DiagramCanvas` comes from an edge
whose source and target both resolve in the node map — so an edge with a
dangling endpoint contributes no connector element (and no partial draw,
since skipping happens before any geometry is computed) — and a config
all of whose edges dangle renders zero connectors; no error path exists
(rendering is a total function). -/
theorem danglingEdge_skipped (config : DiagramConfig) :
    (∀ re ∈ (renderDiagram config).1, ∃ (i : ℕ) (edge : DiagramEdge),
        config.edges[i]? = some edge ∧ re.edgeId = edge.id ∧
        (nodeLookup config.nodes edge.source).isSome ∧
        (nodeLookup config.nodes edge.target).isSome) ∧
    ((∀ e ∈ config.edges, nodeLookup config.nodes e.source = none ∨
        nodeLookup config.nodes e.target = none) →
      (renderDiagram config).1 = []) := by
  constructor
  · intro re hre
    obtain ⟨p, hmem, hsome⟩ := List.mem_filterMap.mp hre
    obtain ⟨s, t, hs, ht, hre'⟩ := renderEdgeAt_some_inv hsome
    refine ⟨p.1, p.2, List.mem_enum_iff_getElem?.mp hmem, ?_, ?_, ?_⟩
    · rw [hre']; rfl
    · rw [hs]; rfl
    · rw [ht]; rfl
  · intro h
    apply List.filterMap_eq_nil_iff.mpr
    rintro ⟨i, e⟩ hmem
    have hget : config.edges[i]? = some e := List.mem_enum_iff_getElem?.mp hmem
    have he : e ∈ config.edges := by
      have := List.getElem?_eq_some.mp hget
      obtain ⟨hlt, rfl⟩ := this
      exact List.getElem_mem hlt
    exact renderEdgeAt_none_of_dangling (h e he)

/-- C3 witness: `danglingDiagram`, whose only edge targets the missing
node id `C`, renders zero connectors. -/
theorem danglingEdge_skipped_witness :
    (∀ e ∈ danglingDiagram.edges, nodeLookup danglingDiagram.nodes e.source = none ∨
        nodeLookup danglingDiagram.nodes e.target = none) ∧
    (renderDiagram danglingDiagram).1 = [] :=
  ⟨by decide, (danglingEdge_skipped danglingDiagram).2 (by decide)⟩

/-- C4: the entrance delay of the node rendered at position `i` of the
node list, and of the connector rendered for the edge at position `i` of
the edge list, is `(animation?.delay ?? 0) + i * (animation?.stagger ?? 0.1)`
— base delay and stagger from the config's optional animation block,
defaulting to 0 and 0.1. -/
theorem entranceDelay_stagger (config : DiagramConfig) :
    (renderNodes config).length = config.nodes.length ∧
    (∀ i (h1 : i < (renderNodes config).length),
      ((renderNodes config).get ⟨i, h1⟩).delay =
        ((config.animation.bind AnimationConfig.delay).getD 0) +
          i * ((config.animation.bind AnimationConfig.stagger).getD (1 / 10))) ∧
    (∀ (i : ℕ) (edge : DiagramEdge) (re : RenderedEdge),
      config.edges[i]? = some edge →
      renderEdgeAt config.nodes config.animation i edge = some re →
      re ∈ (renderDiagram config).1 ∧
      re.delay =
        ((config.animation.bind AnimationConfig.delay).getD 0) +
          i * ((config.animation.bind AnimationConfig.stagger).getD (1 / 10))) := by
  refine ⟨by simp [renderNodes], ?_, ?_⟩
  · intro i h1
    simp [renderNodes, List.enum_eq_enumFrom, List.getElem_enumFrom, renderNode,
      elementDelay]
  · intro i edge re hget hsome
    constructor
    · exact List.mem_filterMap.mpr ⟨(i, edge), List.mem_enum_iff_getElem?.mpr hget, hsome⟩
    · obtain ⟨s, t, _, _, hre⟩ := renderEdgeAt_some_inv hsome
      rw [hre]
      rfl

/-- C4 witness: both delays of `sampleDiagram` (no animation block) at
position 0 evaluate to `0 + 0 * 0.1`. -/
theorem entranceDelay_stagger_witness :
    (0 < (renderNodes sampleDiagram).length ∧
     ((renderNodes sampleDiagram).get ⟨0, by decide⟩).delay =
       ((sampleDiagram.animation.bind AnimationConfig.delay).getD 0) +
         (0 : ℕ) * ((sampleDiagram.animation.bind AnimationConfig.stagger).getD (1 / 10))) ∧
    (sampleDiagram.edges[0]? = some edgeAB ∧
     renderEdgeAt sampleDiagram.nodes sampleDiagram.animation 0 edgeAB =
       some sampleRenderedEdge ∧
     sampleRenderedEdge ∈ (renderDiagram sampleDiagram).1 ∧
     sampleRenderedEdge.delay =
       ((sampleDiagram.animation.bind AnimationConfig.delay).getD 0) +
         (0 : ℕ) * ((sampleDiagram.animation.bind AnimationConfig.stagger).getD (1 / 10))) := by
  refine ⟨⟨by decide, (entranceDelay_stagger sampleDiagram).2.1 0 (by decide)⟩, ?_⟩
  have h := (entranceDelay_stagger sampleDiagram).2.2 0 edgeAB sampleRenderedEdge
    (by decide) (by rfl)
  exact ⟨by decide, by rfl, h.1, h.2⟩

/-- C5: the property lines rendered for a node are exactly the first two
entries of its `properties` list, each truncated; hence at most two lines
appear and third-and-later entries never do; the render is independent of
the node's `methods` list (the component never reads it, so no method
line beyond the first two can appear either); truncation leaves strings
of length at most 20 unchanged and replaces a longer string by its first
20 characters followed by the `...` ellipsis marker. -/
theorem nodeText_truncation (node : DiagramNode) (d : ℚ) :
    (renderNode node d).propertyLines =
      ((node.properties.getD []).take 2).map truncateProp ∧
    (renderNode node d).propertyLines.length ≤ 2 ∧
    (∀ ms, renderNode { node with methods := ms } d = renderNode node d) ∧
    (∀ s : String,
      (s.length ≤ 20 → truncateProp s = s) ∧
      (s.length > 20 →
        truncateProp s = String.mk (s.toList.take 20) ++ "...")) := by
  refine ⟨rfl, ?_, fun ms => rfl, ?_⟩
  · show (((node.properties.getD []).take 2).map truncateProp).length ≤ 2
    rw [List.length_map]
    exact List.length_take_le 2 _
  · intro s
    constructor
    · intro hle
      exact if_neg (by omega)
    · intro hgt
      exact if_pos hgt

/-- A node carrying three properties, the second longer than 20
characters, plus an untouched `methods` list. -/
def nodeProps : DiagramNode :=
  { id := "P", type := .class_, label := "P", position := ⟨0, 0⟩
    properties := some ["shortProp", "a23456789012345678901234", "thirdNeverShown"]
    methods := some ["m1", "m2", "m3"] }

/-- C5 witness: the node with three properties renders exactly two lines,
the long one truncated with the ellipsis and the short one unchanged. -/
theorem nodeText_truncation_witness :
    (renderNode nodeProps 0).propertyLines =
      ((nodeProps.properties.getD []).take 2).map truncateProp ∧
    (renderNode nodeProps 0).propertyLines =
      ["shortProp", "a2345678901234567890..."] ∧
    (("shortProp".length ≤ 20 ∧ truncateProp "shortProp" = "shortProp") ∧
     ("a23456789012345678901234".length > 20 ∧
      truncateProp "a23456789012345678901234" =
        String.mk ("a23456789012345678901234".toList.take 20) ++ "...")) := by
  have h := nodeText_truncation nodeProps 0
  refine ⟨h.1, by decide, ⟨⟨by decide, (h.2.2.2 "shortProp").1 (by decide)⟩,
    ⟨by decide, (h.2.2.2 "a23456789012345678901234").2 (by decide)⟩⟩⟩

/-- C6: for an edge whose endpoints both resolve, `DiagramCanvas` renders
a connector whose cubic path starts at the bottom-center anchor of the
source node's bounding box and ends at the top-center anchor of the
target node's bounding box, with both control points at the vertical
midpoint of the two anchor heights, x-aligned to the start and end
respectively; a node without an explicit `size` gets the default 160×100
box, and an inheritance edge without a color override uses the
hollow-arrow marker and the default inheritance color `#4f46e5`. -/
theorem connectorPath_spec (config : DiagramConfig) (i : ℕ) (edge : DiagramEdge)
    (srcN tgtN : DiagramNode)
    (he : config.edges[i]? = some edge)
    (hs : nodeLookup config.nodes edge.source = some srcN)
    (ht : nodeLookup config.nodes edge.target = some tgtN) :
    ∃ re ∈ (renderDiagram config).1,
      re.edgeId = edge.id ∧
      re.path.p0 = ⟨srcN.position.x + nodeWidth srcN / 2,
                    srcN.position.y + nodeHeight srcN⟩ ∧
      re.path.p3 = ⟨tgtN.position.x + nodeWidth tgtN / 2, tgtN.position.y⟩ ∧
      re.path.c1 = ⟨re.path.p0.x, (re.path.p0.y + re.path.p3.y) / 2⟩ ∧
      re.path.c2 = ⟨re.path.p3.x, (re.path.p0.y + re.path.p3.y) / 2⟩ ∧
      (edge.type = .inheritance → edge.color = none →
        re.marker = "url(#arrow-hollow)" ∧ re.color = "#4f46e5") ∧
      (∀ n : DiagramNode, n.size = none → nodeWidth n = 160 ∧ nodeHeight n = 100) := by
  refine ⟨renderResolvedEdge edge srcN.position tgtN.position
      ⟨nodeWidth srcN, nodeHeight srcN⟩ ⟨nodeWidth tgtN, nodeHeight tgtN⟩
      (elementDelay config.animation i), ?_, rfl, rfl, rfl, rfl, rfl, ?_, ?_⟩
  · exact List.mem_filterMap.mpr ⟨(i, edge), List.mem_enum_iff_getElem?.mpr he,
      renderEdgeAt_some_of_resolved hs ht⟩
  · intro htype hcolor
    rw [show (renderResolvedEdge edge srcN.position tgtN.position
        ⟨nodeWidth srcN, nodeHeight srcN⟩ ⟨nodeWidth tgtN, nodeHeight tgtN⟩
        (elementDelay config.animation i)).marker = getEdgeMarker edge.type from rfl,
      show (renderResolvedEdge edge srcN.position tgtN.position
        ⟨nodeWidth srcN, nodeHeight srcN⟩ ⟨nodeWidth tgtN, nodeHeight tgtN⟩
        (elementDelay config.animation i)).color
        = edge.color.getD (edgeColors edge.type) from rfl,
      htype, hcolor]
    exact ⟨rfl, rfl⟩
  · intro n hn
    rw [nodeWidth, nodeHeight, hn]
    exact ⟨rfl, rfl⟩

/-- C6 witness: scenario B — two nodes `A`, `B` with no explicit size and
one inheritance edge `A→B` without a color override. -/
theorem connectorPath_spec_witness :
    (sampleDiagram.edges[0]? = some edgeAB ∧
     nodeLookup sampleDiagram.nodes edgeAB.source = some nodeA ∧
     nodeLookup sampleDiagram.nodes edgeAB.target = some nodeB) ∧
    (∃ re ∈ (renderDiagram sampleDiagram).1,
      re.edgeId = edgeAB.id ∧
      re.path.p0 = ⟨nodeA.position.x + nodeWidth nodeA / 2,
                    nodeA.position.y + nodeHeight nodeA⟩ ∧
      re.path.p3 = ⟨nodeB.position.x + nodeWidth nodeB / 2, nodeB.position.y⟩ ∧
      re.path.c1 = ⟨re.path.p0.x, (re.path.p0.y + re.path.p3.y) / 2⟩ ∧
      re.path.c2 = ⟨re.path.p3.x, (re.path.p0.y + re.path.p3.y) / 2⟩ ∧
      (edgeAB.type = .inheritance → edgeAB.color = none →
        re.marker = "url(#arrow-hollow)" ∧ re.color = "#4f46e5") ∧
      (∀ n : DiagramNode, n.size = none → nodeWidth n = 160 ∧ nodeHeight n = 100)) :=
  ⟨⟨by decide, by decide, by decide⟩,
   connectorPath_spec sampleDiagram 0 edgeAB nodeA nodeB (by decide) (by decide)
     (by decide)⟩

/-! ## Claim theorems: interaction store -/

/-- The zoom bounds invariant preserved by every store action. -/
theorem zoom_bounds_applyAction (s : DiagramState)
    (h : 1 / 10 ≤ s.zoom ∧ s.zoom ≤ 2) (a : StoreAction) :
    1 / 10 ≤ (applyAction s a).zoom ∧ (applyAction s a).zoom ≤ 2 := by
  cases a with
  | setConfig c => exact h
  | setSelectedNode n => exact h
  | setHoveredNode n => exact h
  | setZoom z =>
    constructor
    · exact le_max_left _ _
    · exact max_le (by norm_num) (min_le_left _ _)
  | setPan p => exact h
  | reset =>
    constructor
    · norm_num [applyAction, resetStore, initialState]
    · norm_num [applyAction, resetStore, initialState]

/-- The zoom bounds invariant holds after any action sequence from a state
satisfying it. -/
theorem zoom_bounds_runActions (acts : List StoreAction) (s : DiagramState)
    (h : 1 / 10 ≤ s.zoom ∧ s.zoom ≤ 2) :
    1 / 10 ≤ (runActions s acts).zoom ∧ (runActions s acts).zoom ≤ 2 := by
  induction acts generalizing s with
  | nil => exact h
  | cons a acts ih => exact ih (applyAction s a) (zoom_bounds_applyAction s h a)

/-- C10: after any sequence of store operations from the initial state the
zoom lies in [0.1, 2]; the initial zoom is 1, `setZoom` clamps its
argument to `max(0.1, min(2, z))`, `reset` restores zoom to 1, and
`setConfig`, `setSelectedNode`, `setHoveredNode`, `setPan` leave zoom
unchanged. -/
theorem zoom_clamped_invariant :
    (∀ acts : List StoreAction,
      1 / 10 ≤ (runActions initialState acts).zoom ∧
      (runActions initialState acts).zoom ≤ 2) ∧
    initialState.zoom = 1 ∧
    (∀ (z : ℚ) (s : DiagramState), (setZoom z s).zoom = max (1 / 10) (min 2 z)) ∧
    (∀ s : DiagramState, (resetStore s).zoom = 1) ∧
    (∀ (c : Option DiagramConfig) (s : DiagramState), (setConfig c s).zoom = s.zoom) ∧
    (∀ (n : Option String) (s : DiagramState), (setSelectedNode n s).zoom = s.zoom) ∧
    (∀ (n : Option String) (s : DiagramState), (setHoveredNode n s).zoom = s.zoom) ∧
    (∀ (p : Position) (s : DiagramState), (setPan p s).zoom = s.zoom) :=
  ⟨fun acts => zoom_bounds_runActions acts initialState (by norm_num [initialState]),
   rfl, fun z s => rfl, fun s => rfl, fun c s => rfl, fun n s => rfl, fun n s => rfl,
   fun p s => rfl⟩

end PatternLab
